import Mathlib

/-
Verification of the multi-warehouse inventory reconciliation engine
(`InventorySyncService`, src/unnamed/part_008).

The JavaScript service keeps a `Map` of warehouses, each with a `Map` from
product id to an inventory record; a process-wide sync queue, a conflict log,
and wall-clock timestamps from `Date.now()`.  We embed it shallowly:

* JS `Map`s become association lists (`mapGet` / `mapSet` mirror `Map.get` /
  `Map.set`, including the insertion-order semantics of iteration).
* JS numbers holding quantities become `Int`; versions, timestamps, lag
  counters become `Nat`.
* `throw` becomes `Except String`.
* The random id generators (`generateUpdateId`, `generateConflictId`) carry no
  logic; they are modelled by counters (`nextUpdateId`, `nextConflictId`).
* `Date.now()` is modelled by a `clock` field that advances by one at every
  atomic step; each operation reads the clock of the step that runs it.
* Concurrency: `updateInventory` runs synchronously (no intervening `await`
  releases control) through the queue push and the local `applyUpdate`; the
  per-target `syncToWarehouse` tasks spawned by `propagateUpdate` each run
  atomically but may be scheduled later, interleaved with other operations.
  We model an in-flight task pool (`pending`) and a small-step scheduler
  (`step`): an `Event.update` performs the synchronous part and enqueues the
  propagation tasks; an `Event.deliver i` runs the i-th pending task.
-/

namespace InventorySync

/-- Association-list lookup mirroring JS `Map.get`: first entry with the key. -/
def mapGet {α : Type} : List (String × α) → String → Option α
  | [], _ => none
  | kv :: rest, k => if kv.1 = k then some kv.2 else mapGet rest k

/-- Association-list update mirroring JS `Map.set`: replace the entry in place
(keeping its position, as JS Map iteration order does) or append a new one. -/
def mapSet {α : Type} : List (String × α) → String → α → List (String × α)
  | [], k, v => [(k, v)]
  | kv :: rest, k, v => if kv.1 = k then (k, v) :: rest else kv :: mapSet rest k v

/-- Per-(warehouse, product) stock state, the value stored in
`warehouse.inventory` (part_008 lines 97-102). -/
structure InventoryRecord where
  quantity : Int
  reserved : Int
  version : Nat
  lastUpdated : Nat
deriving DecidableEq

/-- The default record used by `applyUpdate` when a product has no record yet
(part_008 lines 67-71).  The JS default has no `lastUpdated` field; it is never
read before being overwritten, so we use 0. -/
def defaultRecord : InventoryRecord :=
  { quantity := 0, reserved := 0, version := 0, lastUpdated := 0 }

/-- One mutation intent, built by `updateInventory` (part_008 lines 38-46). -/
structure InventoryUpdate where
  id : Nat
  warehouseId : String
  productId : String
  quantity : Int
  operation : String
  timestamp : Nat
  version : Nat
deriving DecidableEq

/-- One warehouse node (part_008 lines 16-23). -/
structure Warehouse where
  id : String
  location : String
  inventory : List (String × InventoryRecord)
  lastSync : Option Nat
  status : String
  lag : Nat
deriving DecidableEq

/-- A detected concurrent-update collision (part_008 lines 149-157).
`resolution` is `none` until `handleConflict` assigns it. -/
structure Conflict where
  id : Nat
  warehouseId : String
  productId : String
  incomingUpdate : InventoryUpdate
  currentState : InventoryRecord
  timestamp : Nat
  resolved : Bool
  resolution : Option String
deriving DecidableEq

/-- The whole service state (part_008 lines 4-10), plus the modelling devices
described in the header: `pending` (spawned but not yet run propagation
tasks), `clock` (wall clock), and the id counters. -/
structure SyncState where
  warehouses : List (String × Warehouse)
  syncQueue : List InventoryUpdate
  conflicts : List Conflict
  syncInProgress : Bool
  pending : List (String × InventoryUpdate)
  nextUpdateId : Nat
  nextConflictId : Nat
  clock : Nat
deriving DecidableEq

/-- The initial service state (constructor, part_008 lines 4-10). -/
def initState : SyncState :=
  { warehouses := [], syncQueue := [], conflicts := [], syncInProgress := false,
    pending := [], nextUpdateId := 0, nextConflictId := 0, clock := 0 }

/-- Mirrors `registerWarehouse` (part_008 lines 15-26): unconditionally
`Map.set`s a fresh warehouse; there is no duplicate check in the source. -/
def registerWarehouse (s : SyncState) (warehouseId location : String) : SyncState :=
  let w : Warehouse :=
    { id := warehouseId, location := location, inventory := [],
      lastSync := none, status := "active", lag := 0 }
  { s with warehouses := mapSet s.warehouses warehouseId w }

/-- Mirrors `getVersion` (part_008 lines 344-350). -/
def getVersion (s : SyncState) (warehouseId productId : String) : Nat :=
  match mapGet s.warehouses warehouseId with
  | none => 0
  | some warehouse =>
    match mapGet warehouse.inventory productId with
    | none => 0
    | some inventory => inventory.version

/-- Mirrors the record computation of `applyUpdate` (part_008 lines 66-105).
Note the `reserve` guard is `newQuantity >= update.quantity` in the source,
i.e. it compares against `quantity`, not `quantity - reserved`. -/
def applyUpdate (current : InventoryRecord) (update : InventoryUpdate) :
    Except String InventoryRecord :=
  if update.operation = "set" then
    Except.ok { quantity := update.quantity, reserved := current.reserved,
                version := update.version, lastUpdated := update.timestamp }
  else if update.operation = "add" then
    Except.ok { quantity := current.quantity + update.quantity, reserved := current.reserved,
                version := update.version, lastUpdated := update.timestamp }
  else if update.operation = "subtract" then
    Except.ok { quantity := max 0 (current.quantity - update.quantity), reserved := current.reserved,
                version := update.version, lastUpdated := update.timestamp }
  else if update.operation = "reserve" then
    if update.quantity ≤ current.quantity then
      Except.ok { quantity := current.quantity, reserved := current.reserved + update.quantity,
                  version := update.version, lastUpdated := update.timestamp }
    else
      Except.error ("Insufficient inventory to reserve " ++ toString update.quantity)
  else if update.operation = "release" then
    Except.ok { quantity := current.quantity, reserved := max 0 (current.reserved - update.quantity),
                version := update.version, lastUpdated := update.timestamp }
  else
    Except.ok { quantity := current.quantity, reserved := current.reserved,
                version := update.version, lastUpdated := update.timestamp }

/-- `applyUpdate` at the warehouse level: read the current record (or the
default), compute the new one, and `Map.set` it (part_008 lines 66-105). -/
def applyUpdateW (warehouse : Warehouse) (update : InventoryUpdate) :
    Except String Warehouse :=
  match applyUpdate ((mapGet warehouse.inventory update.productId).getD defaultRecord) update with
  | Except.ok r =>
      Except.ok { warehouse with inventory := mapSet warehouse.inventory update.productId r }
  | Except.error e => Except.error e

/-- The propagation targets of `propagateUpdate` (part_008 lines 110-120):
every warehouse other than the origin whose status is "active". -/
def propagationTargets (warehouses : List (String × Warehouse)) (originId : String) :
    List (String × Warehouse) :=
  warehouses.filter (fun kv => decide (kv.1 ≠ originId ∧ kv.2.status = "active"))

/-- The update object built by `updateInventory` (part_008 lines 38-46):
version := current version at the origin + 1, timestamp := now, and the id
drawn from the id counter (modelling `generateUpdateId`). -/
def mkUpdate (s : SyncState) (warehouseId productId : String)
    (quantity : Int) (operation : String) (now : Nat) : InventoryUpdate :=
  { id := s.nextUpdateId, warehouseId := warehouseId, productId := productId,
    quantity := quantity, operation := operation, timestamp := now,
    version := getVersion s warehouseId productId + 1 }

/-- Mirrors `updateInventory` (part_008 lines 31-61): look up the warehouse
(error if unregistered), build the update (version := current version + 1,
timestamp := now), push it onto the sync queue, apply it locally, and spawn
one propagation task per other active warehouse.  A failing `applyUpdate`
(reserve) propagates its error to the caller after the queue push, and the
propagation tasks are then never spawned. -/
def updateInventory (s : SyncState) (warehouseId productId : String)
    (quantity : Int) (operation : String) (now : Nat) :
    SyncState × Except String InventoryUpdate :=
  match mapGet s.warehouses warehouseId with
  | none => (s, Except.error ("Warehouse " ++ warehouseId ++ " not found"))
  | some warehouse =>
    let update : InventoryUpdate := mkUpdate s warehouseId productId quantity operation now
    let s1 : SyncState :=
      { s with syncQueue := s.syncQueue ++ [update], nextUpdateId := s.nextUpdateId + 1 }
    match applyUpdateW warehouse update with
    | Except.error e => (s1, Except.error e)
    | Except.ok w2 =>
      let s2 : SyncState := { s1 with warehouses := mapSet s1.warehouses warehouseId w2 }
      let s3 : SyncState :=
        { s2 with pending := s2.pending ++
            (propagationTargets s2.warehouses warehouseId).map (fun kv => (kv.1, update)) }
      (s3, Except.ok update)

/-- The try-branch of `syncToWarehouse` when no conflict is detected
(part_008 lines 135-142): apply the update and stamp `lastSync`; the catch
handler turns an `applyUpdate` error into a lag increment. -/
def applyAtTarget (s : SyncState) (targetId : String) (warehouse : Warehouse)
    (update : InventoryUpdate) (now : Nat) : SyncState :=
  match applyUpdateW warehouse update with
  | Except.ok w2 =>
      { s with warehouses := mapSet s.warehouses targetId ({ w2 with lastSync := some now }) }
  | Except.error _ =>
      let lagged : Warehouse := { warehouse with lag := warehouse.lag + 1 }
      { s with warehouses := mapSet s.warehouses targetId lagged }

/-- Mirrors `handleConflict` (part_008 lines 148-174): push a conflict record,
then last-write-wins on the update timestamp.  If the accepted incoming update
throws inside `applyUpdate` (an impossible reserve), the conflict keeps
`resolved = false` and the exception reaches `syncToWarehouse`'s catch, which
increments the target's lag. -/
def handleConflict (s : SyncState) (targetId : String) (warehouse : Warehouse)
    (update : InventoryUpdate) (current : InventoryRecord) (now : Nat) : SyncState :=
  let conflict : Conflict :=
    { id := s.nextConflictId, warehouseId := warehouse.id, productId := update.productId,
      incomingUpdate := update, currentState := current, timestamp := now,
      resolved := false, resolution := none }
  if current.lastUpdated < update.timestamp then
    match applyUpdateW warehouse update with
    | Except.ok w2 =>
        let accepted : Conflict :=
          { conflict with resolved := true, resolution := some "accepted_incoming" }
        { s with warehouses := mapSet s.warehouses targetId w2,
                 conflicts := s.conflicts ++ [accepted],
                 nextConflictId := s.nextConflictId + 1 }
    | Except.error _ =>
        let lagged : Warehouse := { warehouse with lag := warehouse.lag + 1 }
        { s with warehouses := mapSet s.warehouses targetId lagged,
                 conflicts := s.conflicts ++ [conflict],
                 nextConflictId := s.nextConflictId + 1 }
  else
    let kept : Conflict :=
      { conflict with resolved := true, resolution := some "kept_current" }
    { s with conflicts := s.conflicts ++ [kept],
             nextConflictId := s.nextConflictId + 1 }

/-- Mirrors `syncToWarehouse` (part_008 lines 125-143): a conflict is detected
when the target already has a record whose version is at least the update's
version; otherwise the update is applied (with the catch handler bumping lag
on failure). -/
def syncToWarehouse (s : SyncState) (targetId : String) (update : InventoryUpdate)
    (now : Nat) : SyncState :=
  match mapGet s.warehouses targetId with
  | none => s
  | some warehouse =>
    match mapGet warehouse.inventory update.productId with
    | some current =>
      if update.version ≤ current.version then
        handleConflict s targetId warehouse update current now
      else
        applyAtTarget s targetId warehouse update now
    | none => applyAtTarget s targetId warehouse update now

/-- One entry of the per-warehouse breakdown returned by `getGlobalInventory`
(part_008 lines 191-197). -/
structure GlobalWarehouseEntry where
  warehouseId : String
  location : String
  quantity : Int
  reserved : Int
  available : Int
deriving DecidableEq

/-- The aggregate returned by `getGlobalInventory` (part_008 lines 201-208). -/
structure GlobalInventory where
  productId : String
  totalQuantity : Int
  totalReserved : Int
  totalAvailable : Int
  warehouses : List GlobalWarehouseEntry
  lastUpdated : Nat
deriving DecidableEq

/-- Mirrors `getGlobalInventory` (part_008 lines 179-209): sum quantity and
reserved over every warehouse that has a record for the product; `lastUpdated`
is `Date.now()` at the moment of the call. -/
def getGlobalInventory (s : SyncState) (productId : String) (now : Nat) : GlobalInventory :=
  let r := s.warehouses.foldl
    (fun (acc : Int × Int × List GlobalWarehouseEntry) kv =>
      match mapGet kv.2.inventory productId with
      | none => acc
      | some inventory =>
        (acc.1 + inventory.quantity, acc.2.1 + inventory.reserved,
         acc.2.2 ++ [{ warehouseId := kv.1, location := kv.2.location,
                       quantity := inventory.quantity, reserved := inventory.reserved,
                       available := inventory.quantity - inventory.reserved }]))
    (0, 0, [])
  { productId := productId, totalQuantity := r.1, totalReserved := r.2.1,
    totalAvailable := r.1 - r.2.1, warehouses := r.2.2, lastUpdated := now }

/-- Mirrors `estimateShipping` (part_008 lines 337-342). -/
def estimateShipping (distance : Nat) : String :=
  if distance < 100 then "1-2 days"
  else if distance < 500 then "2-3 days"
  else if distance < 1000 then "3-5 days"
  else "5-7 days"

/-- One fulfillment candidate (part_008 lines 226-232). -/
structure Candidate where
  warehouseId : String
  location : String
  available : Int
  distance : Nat
  estimatedShipping : String
deriving DecidableEq

/-- The candidate built from one warehouse entry in `findOptimalWarehouse`'s
loop (part_008 lines 217-234), if it qualifies.  The source's
`calculateDistance` is an explicit random stub (lines 328-332), so the
distance metric is an oracle parameter `dist`. -/
def candidateOf (productId : String) (quantity : Int) (dist : String → String → Nat)
    (shippingAddress : String) (kv : String × Warehouse) : Option Candidate :=
  match mapGet kv.2.inventory productId with
  | none => none
  | some inventory =>
    if quantity ≤ inventory.quantity - inventory.reserved then
      some { warehouseId := kv.1, location := kv.2.location,
             available := inventory.quantity - inventory.reserved,
             distance := dist kv.2.location shippingAddress,
             estimatedShipping := estimateShipping (dist kv.2.location shippingAddress) }
    else none

/-- The candidate list of `findOptimalWarehouse`, in warehouse-iteration
(registration) order (part_008 lines 215-234). -/
def candidatesFor (s : SyncState) (productId : String) (quantity : Int)
    (dist : String → String → Nat) (shippingAddress : String) : List Candidate :=
  s.warehouses.filterMap (candidateOf productId quantity dist shippingAddress)

/-- Stable insertion used to model `candidates.sort((a, b) => a.distance - b.distance)`:
an element is placed before the first element of strictly greater or equal
distance that was inserted after it.  `Array.prototype.sort` is specified to be
stable and to sort by the comparator, which determines its output uniquely for
this total-preorder comparator; insertion sort realises exactly that output. -/
def sortInsert (c : Candidate) : List Candidate → List Candidate
  | [] => [c]
  | d :: rest => if c.distance ≤ d.distance then c :: d :: rest else d :: sortInsert c rest

/-- Stable sort by distance (part_008 line 237). -/
def sortByDistance : List Candidate → List Candidate
  | [] => []
  | c :: rest => sortInsert c (sortByDistance rest)

/-- Mirrors `findOptimalWarehouse` (part_008 lines 214-240): sort the
candidates by distance and return the first, or none (`null`). -/
def findOptimalWarehouse (s : SyncState) (productId : String) (quantity : Int)
    (dist : String → String → Nat) (shippingAddress : String) : Option Candidate :=
  (sortByDistance (candidatesFor s productId quantity dist shippingAddress)).head?

/-- Mirrors `reserveInventory` (part_008 lines 245-247). -/
def reserveInventory (s : SyncState) (warehouseId productId : String) (quantity : Int)
    (now : Nat) : SyncState × Except String InventoryUpdate :=
  updateInventory s warehouseId productId quantity "reserve" now

/-- Mirrors `releaseInventory` (part_008 lines 252-254). -/
def releaseInventory (s : SyncState) (warehouseId productId : String) (quantity : Int)
    (now : Nat) : SyncState × Except String InventoryUpdate :=
  updateInventory s warehouseId productId quantity "release" now

/-- Mirrors `commitReservation` (part_008 lines 259-263): release, then
subtract; each inner call observes its own clock reading. -/
def commitReservation (s : SyncState) (warehouseId productId : String) (quantity : Int)
    (now : Nat) : SyncState × Except String Unit :=
  let r1 := releaseInventory s warehouseId productId quantity now
  match r1.2 with
  | Except.error e => (r1.1, Except.error e)
  | Except.ok _ =>
    let r2 := updateInventory r1.1 warehouseId productId quantity "subtract" (now + 1)
    match r2.2 with
    | Except.error e => (r2.1, Except.error e)
    | Except.ok _ => (r2.1, Except.ok ())

/-- The integer-valued fields of `getSyncStatus` (part_008 lines 294-323).
The floating-point `avgLag` / `healthy` fields and the per-warehouse breakdown
are omitted; `queueLength` mirrors `this.syncQueue.length` (line 317). -/
structure SyncStatus where
  totalWarehouses : Nat
  activeWarehouses : Nat
  queueLength : Nat
  conflictCount : Nat
  unresolvedConflicts : Nat
deriving DecidableEq

/-- Mirrors the integer fields of `getSyncStatus` (part_008 lines 294-323). -/
def getSyncStatus (s : SyncState) : SyncStatus :=
  { totalWarehouses := s.warehouses.length,
    activeWarehouses := (s.warehouses.filter (fun kv => decide (kv.2.status = "active"))).length,
    queueLength := s.syncQueue.length,
    conflictCount := s.conflicts.length,
    unresolvedConflicts := (s.conflicts.filter (fun c => !c.resolved)).length }

/-- The atomic steps of the engine, at the granularity at which the JS event
loop interleaves them (see the file header): a registration, the synchronous
part of an `updateInventory` call, or the run of one pending propagation
task. -/
inductive Event where
  | register (warehouseId location : String)
  | update (warehouseId productId : String) (quantity : Int) (operation : String)
  | deliver (index : Nat)
deriving DecidableEq

/-- One scheduler step.  The clock advances by one per step; the operation run
by the step observes the pre-step clock as its `Date.now()`. -/
def step (s : SyncState) (e : Event) : SyncState :=
  let now := s.clock
  let s1 : SyncState := { s with clock := s.clock + 1 }
  match e with
  | Event.register wid loc => registerWarehouse s1 wid loc
  | Event.update wid pid q op => (updateInventory s1 wid pid q op now).1
  | Event.deliver i =>
    match s1.pending[i]? with
    | none => s1
    | some tu => syncToWarehouse { s1 with pending := s1.pending.eraseIdx i } tu.1 tu.2 now

/-- Run a list of events from a state. -/
def run (s : SyncState) (events : List Event) : SyncState :=
  events.foldl step s

/-- The record held for (warehouse, product) in a warehouse map. -/
def getRecordW (warehouses : List (String × Warehouse)) (warehouseId productId : String) :
    Option InventoryRecord :=
  match mapGet warehouses warehouseId with
  | none => none
  | some warehouse => mapGet warehouse.inventory productId

/-- The record currently held for (warehouse, product). -/
def getRecord (s : SyncState) (warehouseId productId : String) : Option InventoryRecord :=
  getRecordW s.warehouses warehouseId productId

/-- The lag counter of a warehouse (0 if unregistered). -/
def lagOf (s : SyncState) (warehouseId : String) : Nat :=
  match mapGet s.warehouses warehouseId with
  | none => 0
  | some warehouse => warehouse.lag

/-- Projection of a conflict used to state which resolution was recorded. -/
def conflictTag (c : Conflict) : Option String × Nat :=
  (c.resolution, c.incomingUpdate.version)

/-- Success test for `Except`. -/
def isOkE {α : Type} : Except String α → Bool
  | Except.ok _ => true
  | Except.error _ => false

/-- The value of a successful `Except`. -/
def okValue {α : Type} : Except String α → Option α
  | Except.ok a => some a
  | Except.error _ => none

/-- A warehouse whose records all have non-negative quantity and reserved. -/
def WNonneg (w : Warehouse) : Prop :=
  ∀ pr ∈ w.inventory, 0 ≤ pr.2.quantity ∧ 0 ≤ pr.2.reserved

/-- All warehouse records non-negative, and all in-flight updates carry a
non-negative value. -/
def StateNonneg (s : SyncState) : Prop :=
  (∀ kv ∈ s.warehouses, WNonneg kv.2) ∧ ∀ tu ∈ s.pending, 0 ≤ tu.2.quantity

/-- Executable check: every record in every warehouse has non-negative
quantity and reserved. -/
def recordsNonnegB (s : SyncState) : Bool :=
  s.warehouses.all
    (fun kv => kv.2.inventory.all (fun pr => decide (0 ≤ pr.2.quantity ∧ 0 ≤ pr.2.reserved)))

/-- Executable check: an event requests a non-negative value. -/
def eventNonnegB : Event → Bool
  | Event.update _ _ q _ => decide (0 ≤ q)
  | _ => true

/-- Spec-side selector for the fulfillment refinement: the first candidate of
minimal distance in list order.  Stated from the spec's words to compare with
the source's sort-then-head. -/
def firstMinByDistance : List Candidate → Option Candidate
  | [] => none
  | c :: rest =>
    match firstMinByDistance rest with
    | none => some c
    | some d => if c.distance ≤ d.distance then some c else some d

/-- A single warehouse registered, one product set to 3. -/
def smallTrace : List Event :=
  [Event.register "A" "X", Event.update "A" "p" 3 "set"]

/-- The warehouse produced by `smallTrace`. -/
def smallW : Warehouse :=
  { id := "A", location := "X",
    inventory := [("p", { quantity := 3, reserved := 0, version := 1, lastUpdated := 1 })],
    lastSync := none, status := "active", lag := 0 }

/-- Set quantity 10, then reserve 10 twice: each reserve passes the source's
`quantity >= value` check, driving reserved to 20 > quantity. -/
def c1Trace : List Event :=
  [Event.register "A" "X", Event.update "A" "p" 10 "set",
   Event.update "A" "p" 10 "reserve", Event.update "A" "p" 10 "reserve"]

/-- Set quantity 10, reserve 8, then reserve 5: available is 2 < 5, yet the
source's check compares 5 against quantity 10 and succeeds. -/
def c2Trace : List Event :=
  [Event.register "A" "X", Event.update "A" "p" 10 "set",
   Event.update "A" "p" 8 "reserve", Event.update "A" "p" 5 "reserve"]

/-- A prefix of `c2Trace`'s effect used to witness the amended reserve rule. -/
def c2WitTrace : List Event :=
  [Event.register "A" "X", Event.update "A" "p" 10 "set"]

/-- The warehouse produced by `c2WitTrace`. -/
def c2WitW : Warehouse :=
  { id := "A", location := "X",
    inventory := [("p", { quantity := 10, reserved := 0, version := 1, lastUpdated := 1 })],
    lastSync := none, status := "active", lag := 0 }

/-- Warehouse A applies two updates (versions 1, 2) while warehouse B, which
has not yet received them, creates its own version-1 update with a later
timestamp.  Delivering B's update to A is a conflict that last-write-wins
accepts, overwriting A's version 2 with version 1. -/
def c3TracePre : List Event :=
  [Event.register "A" "X", Event.register "B" "Y",
   Event.update "A" "p" 10 "set", Event.update "A" "p" 11 "set",
   Event.update "B" "p" 7 "set"]

/-- `c3TracePre` followed by the delivery of B's stale-versioned update to A. -/
def c3Trace : List Event := c3TracePre ++ [Event.deliver 2]

/-- The record held at (A, p) after `smallTrace`. -/
def c3WitRec : InventoryRecord :=
  { quantity := 3, reserved := 0, version := 1, lastUpdated := 1 }

/-- Warehouse B reaches version 2 for p with quantity 2; warehouse A reserves
5 (fine locally, A holds 10).  Delivering A's reserve to B is a version
conflict whose last-write-wins resolution accepts the incoming update, but
the reserve then fails at B (quantity 2 < 5): the conflict is left with
`resolved = false` and B's lag is incremented. -/
def c4Trace : List Event :=
  [Event.register "A" "X", Event.register "B" "Y",
   Event.update "B" "p" 2 "set", Event.update "B" "p" 2 "set",
   Event.update "A" "p" 10 "set", Event.update "A" "p" 5 "reserve",
   Event.deliver 3]

/-- Prefix used to build a concrete conflict situation for the C4 witness. -/
def c4WitTrace : List Event :=
  [Event.register "A" "X", Event.register "B" "Y",
   Event.update "B" "p" 2 "set", Event.update "A" "p" 9 "set"]

/-- The warehouse B produced by `c4WitTrace`. -/
def c4WitW : Warehouse :=
  { id := "B", location := "Y",
    inventory := [("p", { quantity := 2, reserved := 0, version := 1, lastUpdated := 2 })],
    lastSync := none, status := "active", lag := 0 }

/-- The update created at A by `c4WitTrace` (version 1, timestamp 3). -/
def c4WitU : InventoryUpdate :=
  { id := 1, warehouseId := "A", productId := "p", quantity := 9,
    operation := "set", timestamp := 3, version := 1 }

/-- B's record for p after `c4WitTrace`. -/
def c4WitCur : InventoryRecord :=
  { quantity := 2, reserved := 0, version := 1, lastUpdated := 2 }

/-- Register A and B, set sku1 to 100 at A. -/
def c5TracePre : List Event :=
  [Event.register "A" "X", Event.register "B" "Y",
   Event.update "A" "sku1" 100 "set"]

/-- `c5TracePre` followed by the delivery of the propagation to B. -/
def c5Trace : List Event := c5TracePre ++ [Event.deliver 0]

/-- Register A at location X and give it stock for p. -/
def c6TracePre : List Event :=
  [Event.register "A" "X", Event.update "A" "p" 5 "set"]

/-- `c6TracePre` followed by a second registration of the same id. -/
def c6Trace : List Event := c6TracePre ++ [Event.register "A" "Y"]

/-- Two warehouses registered as "b" then "a", with available stock 10 and 20
for p (their mutual propagations left undelivered). -/
def c7Trace : List Event :=
  [Event.register "b" "LB", Event.register "a" "LA",
   Event.update "b" "p" 10 "set", Event.update "a" "p" 20 "set"]

/-- A distance oracle that puts every warehouse at distance 5. -/
def c7Dist : String → String → Nat := fun _ _ => 5

/-- One warehouse with available stock 4 for p. -/
def c7WitTrace : List Event :=
  [Event.register "w1" "L1", Event.update "w1" "p" 4 "set"]

/-- The single candidate produced by `c7WitTrace` under `c7Dist`. -/
def c7WitCand : Candidate :=
  { warehouseId := "w1", location := "L1", available := 4, distance := 5,
    estimatedShipping := "1-2 days" }

/-! Association-list lemmas. -/

theorem mapGet_mapSet_self {α : Type} (m : List (String × α)) (k : String) (v : α) :
    mapGet (mapSet m k v) k = some v := by
  induction m with
  | nil => simp [mapSet, mapGet]
  | cons kv rest ih =>
    by_cases h : kv.1 = k
    · simp [mapSet, h, mapGet]
    · simp [mapSet, h, mapGet, ih]

theorem mapGet_mapSet_ne {α : Type} (m : List (String × α)) (k kx : String) (v : α)
    (h : kx ≠ k) : mapGet (mapSet m k v) kx = mapGet m kx := by
  induction m with
  | nil => simp [mapSet, mapGet, Ne.symm h]
  | cons kv rest ih =>
    by_cases hk : kv.1 = k
    · simp [mapSet, mapGet, hk, Ne.symm h]
    · simp [mapSet, mapGet, hk, ih]

theorem mapGet_mem {α : Type} (m : List (String × α)) (k : String) (v : α)
    (h : mapGet m k = some v) : (k, v) ∈ m := by
  induction m with
  | nil => simp [mapGet] at h
  | cons kv rest ih =>
    obtain ⟨a, b⟩ := kv
    by_cases hk : a = k
    · subst hk
      simp only [mapGet, if_true, eq_self_iff_true, ite_true, Option.some.injEq] at h
      subst h
      exact List.mem_cons_self _ _
    · simp only [mapGet, if_neg hk] at h
      exact List.mem_cons_of_mem _ (ih h)

theorem mem_mapSet {α : Type} (m : List (String × α)) (k : String) (v : α) (x : String × α)
    (h : x ∈ mapSet m k v) : x = (k, v) ∨ x ∈ m := by
  induction m with
  | nil =>
    simp only [mapSet, List.mem_singleton] at h
    exact Or.inl h
  | cons kv rest ih =>
    by_cases hk : kv.1 = k
    · rw [mapSet, if_pos hk] at h
      rcases List.mem_cons.mp h with h1 | h2
      · exact Or.inl h1
      · exact Or.inr (List.mem_cons_of_mem _ h2)
    · rw [mapSet, if_neg hk] at h
      rcases List.mem_cons.mp h with h1 | h2
      · exact Or.inr (h1 ▸ List.mem_cons_self _ _)
      · rcases ih h2 with h3 | h4
        · exact Or.inl h3
        · exact Or.inr (List.mem_cons_of_mem _ h4)

theorem propagationTargets_mapSet (m : List (String × Warehouse)) (k : String) (w : Warehouse) :
    propagationTargets (mapSet m k w) k = propagationTargets m k := by
  induction m with
  | nil => simp [mapSet, propagationTargets, List.filter]
  | cons kv rest ih =>
    by_cases hk : kv.1 = k
    · simp [mapSet, hk, propagationTargets, List.filter_cons]
    · simp only [mapSet, if_neg hk, propagationTargets, List.filter_cons] at ih ⊢
      rw [ih]

/-! Facts about `applyUpdate`. -/

theorem applyUpdate_ok_meta (c : InventoryRecord) (u : InventoryUpdate) (r : InventoryRecord)
    (h : applyUpdate c u = Except.ok r) :
    r.version = u.version ∧ r.lastUpdated = u.timestamp := by
  unfold applyUpdate at h
  split_ifs at h <;> first
    | (simp only [Except.ok.injEq] at h; subst h; exact ⟨rfl, rfl⟩)
    | simp at h

theorem applyUpdate_ok_nonneg (c : InventoryRecord) (u : InventoryUpdate) (r : InventoryRecord)
    (hq : 0 ≤ c.quantity) (hr : 0 ≤ c.reserved) (hu : 0 ≤ u.quantity)
    (h : applyUpdate c u = Except.ok r) : 0 ≤ r.quantity ∧ 0 ≤ r.reserved := by
  unfold applyUpdate at h
  split_ifs at h <;> first
    | (simp only [Except.ok.injEq] at h; subst h; dsimp only; constructor <;> omega)
    | simp at h

theorem applyUpdate_unknown (c : InventoryRecord) (u : InventoryUpdate)
    (hop : u.operation ∉ (["set", "add", "subtract", "reserve", "release"] : List String)) :
    applyUpdate c u =
      Except.ok { quantity := c.quantity, reserved := c.reserved,
                  version := u.version, lastUpdated := u.timestamp } := by
  simp only [List.mem_cons, List.not_mem_nil, or_false, not_or] at hop
  obtain ⟨h1, h2, h3, h4, h5⟩ := hop
  unfold applyUpdate
  rw [if_neg h1, if_neg h2, if_neg h3, if_neg h4, if_neg h5]

theorem applyUpdate_reserve_ok (c : InventoryRecord) (u : InventoryUpdate)
    (hop : u.operation = "reserve") (hq : u.quantity ≤ c.quantity) :
    applyUpdate c u =
      Except.ok { quantity := c.quantity, reserved := c.reserved + u.quantity,
                  version := u.version, lastUpdated := u.timestamp } := by
  simp [applyUpdate, hop, hq]

theorem applyUpdate_reserve_insufficient (c : InventoryRecord) (u : InventoryUpdate)
    (hop : u.operation = "reserve") (hq : c.quantity < u.quantity) :
    applyUpdate c u =
      Except.error ("Insufficient inventory to reserve " ++ toString u.quantity) := by
  have hn : ¬ u.quantity ≤ c.quantity := not_le.mpr hq
  simp [applyUpdate, hop, hn]

theorem applyUpdateW_ok (w : Warehouse) (u : InventoryUpdate) (w2 : Warehouse)
    (h : applyUpdateW w u = Except.ok w2) :
    ∃ r, applyUpdate ((mapGet w.inventory u.productId).getD defaultRecord) u = Except.ok r ∧
      w2 = { w with inventory := mapSet w.inventory u.productId r } := by
  unfold applyUpdateW at h
  cases happ : applyUpdate ((mapGet w.inventory u.productId).getD defaultRecord) u with
  | ok r =>
    rw [happ] at h
    simp only [Except.ok.injEq] at h
    exact ⟨r, rfl, h.symm⟩
  | error e =>
    rw [happ] at h
    simp at h

theorem applyUpdateW_error (w : Warehouse) (u : InventoryUpdate) (e : String)
    (h : applyUpdateW w u = Except.error e) :
    applyUpdate ((mapGet w.inventory u.productId).getD defaultRecord) u = Except.error e := by
  unfold applyUpdateW at h
  cases happ : applyUpdate ((mapGet w.inventory u.productId).getD defaultRecord) u with
  | ok r => rw [happ] at h; simp at h
  | error e2 => rw [happ] at h; simp_all

/-! Characterization of `updateInventory`. -/

theorem updateInventory_ok (s : SyncState) (wid pid : String) (q : Int) (op : String)
    (now : Nat) (w : Warehouse) (r : InventoryRecord)
    (hw : mapGet s.warehouses wid = some w)
    (happ : applyUpdate ((mapGet w.inventory pid).getD defaultRecord)
              (mkUpdate s wid pid q op now) = Except.ok r) :
    updateInventory s wid pid q op now =
      ({ s with syncQueue := s.syncQueue ++ [mkUpdate s wid pid q op now],
                nextUpdateId := s.nextUpdateId + 1,
                warehouses := mapSet s.warehouses wid
                  ({ w with inventory := mapSet w.inventory pid r }),
                pending := s.pending ++ (propagationTargets s.warehouses wid).map
                  (fun kv => (kv.1, mkUpdate s wid pid q op now)) },
       Except.ok (mkUpdate s wid pid q op now)) := by
  have key : applyUpdateW w (mkUpdate s wid pid q op now) =
      Except.ok ({ w with inventory := mapSet w.inventory pid r }) := by
    unfold applyUpdateW
    rw [show (mkUpdate s wid pid q op now).productId = pid from rfl, happ]
  simp only [updateInventory, hw, key, propagationTargets_mapSet]

theorem updateInventory_err (s : SyncState) (wid pid : String) (q : Int) (op : String)
    (now : Nat) (w : Warehouse) (e : String)
    (hw : mapGet s.warehouses wid = some w)
    (happ : applyUpdate ((mapGet w.inventory pid).getD defaultRecord)
              (mkUpdate s wid pid q op now) = Except.error e) :
    updateInventory s wid pid q op now =
      ({ s with syncQueue := s.syncQueue ++ [mkUpdate s wid pid q op now],
                nextUpdateId := s.nextUpdateId + 1 },
       Except.error e) := by
  have key : applyUpdateW w (mkUpdate s wid pid q op now) = Except.error e := by
    unfold applyUpdateW
    rw [show (mkUpdate s wid pid q op now).productId = pid from rfl, happ]
  simp only [updateInventory, hw, key]

theorem updateInventory_notFound (s : SyncState) (wid pid : String) (q : Int) (op : String)
    (now : Nat) (hw : mapGet s.warehouses wid = none) :
    updateInventory s wid pid q op now =
      (s, Except.error ("Warehouse " ++ wid ++ " not found")) := by
  simp only [updateInventory, hw]

/-! Record lookups across the operations. -/

theorem getRecord_eq (s : SyncState) (wid pid : String) (w : Warehouse)
    (hw : mapGet s.warehouses wid = some w) :
    getRecord s wid pid = mapGet w.inventory pid := by
  unfold getRecord getRecordW
  rw [hw]

theorem getRecordW_mapSet_self (m : List (String × Warehouse)) (k : String) (v : Warehouse)
    (pid : String) : getRecordW (mapSet m k v) k pid = mapGet v.inventory pid := by
  unfold getRecordW
  rw [mapGet_mapSet_self]

theorem getRecordW_mapSet_ne (m : List (String × Warehouse)) (k kx : String) (v : Warehouse)
    (pid : String) (h : kx ≠ k) :
    getRecordW (mapSet m k v) kx pid = getRecordW m kx pid := by
  unfold getRecordW
  rw [mapGet_mapSet_ne _ _ _ _ h]

theorem getVersion_eq (s : SyncState) (wid pid : String) (w : Warehouse)
    (hw : mapGet s.warehouses wid = some w) :
    getVersion s wid pid = ((mapGet w.inventory pid).getD defaultRecord).version := by
  unfold getVersion
  rw [hw]
  cases h : mapGet w.inventory pid <;> simp [h, defaultRecord]

theorem registerWarehouse_getRecord (s : SyncState) (wid2 loc wid pid : String) :
    getRecord (registerWarehouse s wid2 loc) wid pid =
      if wid = wid2 then none else getRecord s wid pid := by
  unfold registerWarehouse getRecord getRecordW
  by_cases hwid : wid = wid2
  · subst hwid
    simp [mapGet_mapSet_self, mapGet]
  · simp [mapGet_mapSet_ne _ _ _ _ hwid, hwid]

/-! Frame facts for `syncToWarehouse`. -/

theorem applyAtTarget_syncQueue (s : SyncState) (tid : String) (w : Warehouse)
    (u : InventoryUpdate) (now : Nat) :
    (applyAtTarget s tid w u now).syncQueue = s.syncQueue := by
  unfold applyAtTarget
  split <;> rfl

theorem applyAtTarget_pending (s : SyncState) (tid : String) (w : Warehouse)
    (u : InventoryUpdate) (now : Nat) :
    (applyAtTarget s tid w u now).pending = s.pending := by
  unfold applyAtTarget
  split <;> rfl

theorem applyAtTarget_conflicts (s : SyncState) (tid : String) (w : Warehouse)
    (u : InventoryUpdate) (now : Nat) :
    (applyAtTarget s tid w u now).conflicts = s.conflicts := by
  unfold applyAtTarget
  split <;> rfl

theorem handleConflict_syncQueue (s : SyncState) (tid : String) (w : Warehouse)
    (u : InventoryUpdate) (current : InventoryRecord) (now : Nat) :
    (handleConflict s tid w u current now).syncQueue = s.syncQueue := by
  unfold handleConflict
  split
  · split <;> rfl
  · rfl

theorem handleConflict_pending (s : SyncState) (tid : String) (w : Warehouse)
    (u : InventoryUpdate) (current : InventoryRecord) (now : Nat) :
    (handleConflict s tid w u current now).pending = s.pending := by
  unfold handleConflict
  split
  · split <;> rfl
  · rfl

theorem syncToWarehouse_notFound (s : SyncState) (tid : String) (u : InventoryUpdate)
    (now : Nat) (hw : mapGet s.warehouses tid = none) :
    syncToWarehouse s tid u now = s := by
  unfold syncToWarehouse
  rw [hw]

theorem syncToWarehouse_noRecord (s : SyncState) (tid : String) (u : InventoryUpdate)
    (now : Nat) (w : Warehouse) (hw : mapGet s.warehouses tid = some w)
    (hcur : mapGet w.inventory u.productId = none) :
    syncToWarehouse s tid u now = applyAtTarget s tid w u now := by
  unfold syncToWarehouse
  rw [hw]
  show (match mapGet w.inventory u.productId with
    | some current =>
      if u.version ≤ current.version then handleConflict s tid w u current now
      else applyAtTarget s tid w u now
    | none => applyAtTarget s tid w u now) = applyAtTarget s tid w u now
  rw [hcur]

theorem syncToWarehouse_noConflict (s : SyncState) (tid : String) (u : InventoryUpdate)
    (now : Nat) (w : Warehouse) (current : InventoryRecord)
    (hw : mapGet s.warehouses tid = some w)
    (hcur : mapGet w.inventory u.productId = some current)
    (hv : ¬ u.version ≤ current.version) :
    syncToWarehouse s tid u now = applyAtTarget s tid w u now := by
  unfold syncToWarehouse
  rw [hw]
  show (match mapGet w.inventory u.productId with
    | some current =>
      if u.version ≤ current.version then handleConflict s tid w u current now
      else applyAtTarget s tid w u now
    | none => applyAtTarget s tid w u now) = applyAtTarget s tid w u now
  rw [hcur]
  show (if u.version ≤ current.version then handleConflict s tid w u current now
    else applyAtTarget s tid w u now) = applyAtTarget s tid w u now
  rw [if_neg hv]

theorem syncToWarehouse_conflict (s : SyncState) (tid : String) (u : InventoryUpdate)
    (now : Nat) (w : Warehouse) (current : InventoryRecord)
    (hw : mapGet s.warehouses tid = some w)
    (hcur : mapGet w.inventory u.productId = some current)
    (hv : u.version ≤ current.version) :
    syncToWarehouse s tid u now = handleConflict s tid w u current now := by
  unfold syncToWarehouse
  rw [hw]
  show (match mapGet w.inventory u.productId with
    | some current =>
      if u.version ≤ current.version then handleConflict s tid w u current now
      else applyAtTarget s tid w u now
    | none => applyAtTarget s tid w u now) = handleConflict s tid w u current now
  rw [hcur]
  show (if u.version ≤ current.version then handleConflict s tid w u current now
    else applyAtTarget s tid w u now) = handleConflict s tid w u current now
  rw [if_pos hv]

theorem syncToWarehouse_syncQueue (s : SyncState) (tid : String) (u : InventoryUpdate)
    (now : Nat) : (syncToWarehouse s tid u now).syncQueue = s.syncQueue := by
  unfold syncToWarehouse
  split
  · rfl
  · split
    · split
      · exact handleConflict_syncQueue _ _ _ _ _ _
      · exact applyAtTarget_syncQueue _ _ _ _ _
    · exact applyAtTarget_syncQueue _ _ _ _ _

theorem syncToWarehouse_pending (s : SyncState) (tid : String) (u : InventoryUpdate)
    (now : Nat) : (syncToWarehouse s tid u now).pending = s.pending := by
  unfold syncToWarehouse
  split
  · rfl
  · split
    · split
      · exact handleConflict_pending _ _ _ _ _ _
      · exact applyAtTarget_pending _ _ _ _ _
    · exact applyAtTarget_pending _ _ _ _ _

/-! Preservation of record non-negativity. -/

theorem getD_nonneg (w : Warehouse) (pid : String) (hw : WNonneg w) :
    0 ≤ ((mapGet w.inventory pid).getD defaultRecord).quantity ∧
    0 ≤ ((mapGet w.inventory pid).getD defaultRecord).reserved := by
  cases hc : mapGet w.inventory pid with
  | none => simp [defaultRecord]
  | some c => simpa using hw _ (mapGet_mem _ _ _ hc)

theorem applyUpdateW_WNonneg (w : Warehouse) (u : InventoryUpdate) (w2 : Warehouse)
    (hw : WNonneg w) (hu : 0 ≤ u.quantity) (h : applyUpdateW w u = Except.ok w2) :
    WNonneg w2 := by
  obtain ⟨r, happ, rfl⟩ := applyUpdateW_ok w u w2 h
  intro pr hpr
  rcases mem_mapSet _ _ _ _ hpr with h1 | h2
  · have hc := getD_nonneg w u.productId hw
    have := applyUpdate_ok_nonneg _ _ _ hc.1 hc.2 hu happ
    rw [h1]
    exact this
  · exact hw _ h2

theorem mapSet_WNonneg (m : List (String × Warehouse)) (k : String) (v : Warehouse)
    (hm : ∀ kv ∈ m, WNonneg kv.2) (hv : WNonneg v) :
    ∀ kv ∈ mapSet m k v, WNonneg kv.2 := by
  intro kv hkv
  rcases mem_mapSet _ _ _ _ hkv with h1 | h2
  · rw [h1]
    exact hv
  · exact hm _ h2

theorem applyAtTarget_WNonneg (s : SyncState) (tid : String) (w : Warehouse)
    (u : InventoryUpdate) (now : Nat)
    (hs : ∀ kv ∈ s.warehouses, WNonneg kv.2) (hw : WNonneg w) (hu : 0 ≤ u.quantity) :
    ∀ kv ∈ (applyAtTarget s tid w u now).warehouses, WNonneg kv.2 := by
  unfold applyAtTarget
  cases happ : applyUpdateW w u with
  | ok w2 =>
    have hw2 : WNonneg w2 := applyUpdateW_WNonneg w u w2 hw hu happ
    exact mapSet_WNonneg _ _ _ hs (fun pr hpr => hw2 pr hpr)
  | error e =>
    exact mapSet_WNonneg _ _ _ hs (fun pr hpr => hw pr hpr)

theorem handleConflict_WNonneg (s : SyncState) (tid : String) (w : Warehouse)
    (u : InventoryUpdate) (current : InventoryRecord) (now : Nat)
    (hs : ∀ kv ∈ s.warehouses, WNonneg kv.2) (hw : WNonneg w) (hu : 0 ≤ u.quantity) :
    ∀ kv ∈ (handleConflict s tid w u current now).warehouses, WNonneg kv.2 := by
  unfold handleConflict
  split
  · cases happ : applyUpdateW w u with
    | ok w2 =>
      have hw2 : WNonneg w2 := applyUpdateW_WNonneg w u w2 hw hu happ
      exact mapSet_WNonneg _ _ _ hs hw2
    | error e =>
      exact mapSet_WNonneg _ _ _ hs (fun pr hpr => hw pr hpr)
  · exact hs

theorem syncToWarehouse_WNonneg (s : SyncState) (tid : String) (u : InventoryUpdate)
    (now : Nat) (hs : ∀ kv ∈ s.warehouses, WNonneg kv.2) (hu : 0 ≤ u.quantity) :
    ∀ kv ∈ (syncToWarehouse s tid u now).warehouses, WNonneg kv.2 := by
  cases hw : mapGet s.warehouses tid with
  | none =>
    rw [syncToWarehouse_notFound s tid u now hw]
    exact hs
  | some w =>
    have hwn : WNonneg w := hs _ (mapGet_mem _ _ _ hw)
    cases hcur : mapGet w.inventory u.productId with
    | some current =>
      by_cases hv : u.version ≤ current.version
      · rw [syncToWarehouse_conflict s tid u now w current hw hcur hv]
        exact handleConflict_WNonneg s tid w u current now hs hwn hu
      · rw [syncToWarehouse_noConflict s tid u now w current hw hcur hv]
        exact applyAtTarget_WNonneg s tid w u now hs hwn hu
    | none =>
      rw [syncToWarehouse_noRecord s tid u now w hw hcur]
      exact applyAtTarget_WNonneg s tid w u now hs hwn hu

theorem updateInventory_StateNonneg (s : SyncState) (wid pid : String) (q : Int)
    (op : String) (now : Nat) (hs : StateNonneg s) (hq : 0 ≤ q) :
    StateNonneg (updateInventory s wid pid q op now).1 := by
  cases hw : mapGet s.warehouses wid with
  | none =>
    rw [updateInventory_notFound s wid pid q op now hw]
    exact hs
  | some w =>
    have hwn : WNonneg w := hs.1 _ (mapGet_mem _ _ _ hw)
    cases happ : applyUpdate ((mapGet w.inventory pid).getD defaultRecord)
        (mkUpdate s wid pid q op now) with
    | error e =>
      rw [updateInventory_err s wid pid q op now w e hw happ]
      exact ⟨hs.1, hs.2⟩
    | ok r =>
      rw [updateInventory_ok s wid pid q op now w r hw happ]
      constructor
      · refine mapSet_WNonneg _ _ _ hs.1 ?_
        intro pr hpr
        rcases mem_mapSet _ _ _ _ hpr with h1 | h2
        · have hc := getD_nonneg w pid hwn
          have := applyUpdate_ok_nonneg _ _ _ hc.1 hc.2 hq happ
          rw [h1]
          exact this
        · exact hwn _ h2
      · intro tu htu
        rcases List.mem_append.mp htu with h1 | h2
        · exact hs.2 _ h1
        · obtain ⟨kv, _, h3⟩ := List.mem_map.mp h2
          rw [← h3]
          exact hq

theorem step_StateNonneg (s : SyncState) (e : Event)
    (hs : StateNonneg s) (he : eventNonnegB e = true) : StateNonneg (step s e) := by
  cases e with
  | register wid loc =>
    refine ⟨?_, hs.2⟩
    refine mapSet_WNonneg _ _ _ hs.1 ?_
    intro pr hpr
    simp at hpr
  | update wid pid q op =>
    have hq : 0 ≤ q := of_decide_eq_true he
    exact updateInventory_StateNonneg _ wid pid q op _ ⟨hs.1, hs.2⟩ hq
  | deliver i =>
    show StateNonneg (match s.pending[i]? with
      | none => { s with clock := s.clock + 1 }
      | some tu => syncToWarehouse
          { s with clock := s.clock + 1, pending := s.pending.eraseIdx i } tu.1 tu.2 s.clock)
    cases hp : s.pending[i]? with
    | none => exact hs
    | some tu =>
      have htu : tu ∈ s.pending := by
        have := List.getElem?_eq_some_iff.mp hp
        obtain ⟨hlt, hget⟩ := this
        rw [← hget]
        exact List.getElem_mem _
      have hu : 0 ≤ tu.2.quantity := hs.2 _ htu
      constructor
      · exact syncToWarehouse_WNonneg _ tu.1 tu.2 s.clock hs.1 hu
      · intro x hx
        rw [syncToWarehouse_pending] at hx
        exact hs.2 _ (List.eraseIdx_subset _ _ hx)

theorem run_StateNonneg (es : List Event) :
    ∀ s, StateNonneg s → es.all eventNonnegB = true → StateNonneg (run s es) := by
  induction es with
  | nil => intro s hs _; exact hs
  | cons e rest ih =>
    intro s hs hall
    rw [List.all_cons, Bool.and_eq_true] at hall
    exact ih _ (step_StateNonneg s e hs hall.1) hall.2

theorem initState_StateNonneg : StateNonneg initState := by
  constructor
  · intro kv hkv
    simp [initState] at hkv
  · intro tu htu
    simp [initState] at htu

/-! Version tracking across the operations. -/

theorem applyAtTarget_record_cases (s : SyncState) (tid : String) (w : Warehouse)
    (u : InventoryUpdate) (now : Nat) (wid pid : String) (r2 : InventoryRecord)
    (hw : mapGet s.warehouses tid = some w)
    (h2 : getRecord (applyAtTarget s tid w u now) wid pid = some r2) :
    getRecord s wid pid = some r2 ∨
      (wid = tid ∧ pid = u.productId ∧ r2.version = u.version) := by
  unfold applyAtTarget at h2
  cases happ : applyUpdateW w u with
  | ok w2 =>
    rw [happ] at h2
    obtain ⟨r, happly, rfl⟩ := applyUpdateW_ok w u w2 happ
    by_cases hwid : wid = tid
    · subst hwid
      have h4 : getRecordW (mapSet s.warehouses wid _) wid pid = some r2 := h2
      rw [getRecordW_mapSet_self] at h4
      have h5 : mapGet (mapSet w.inventory u.productId r) pid = some r2 := h4
      by_cases hpid : pid = u.productId
      · subst hpid
        rw [mapGet_mapSet_self] at h5
        have hr : r = r2 := Option.some.inj h5
        subst hr
        exact Or.inr ⟨rfl, rfl, (applyUpdate_ok_meta _ _ _ happly).1⟩
      · left
        rw [mapGet_mapSet_ne _ _ _ _ hpid] at h5
        rw [getRecord_eq s wid pid w hw]
        exact h5
    · left
      have h4 : getRecordW (mapSet s.warehouses tid _) wid pid = some r2 := h2
      rw [getRecordW_mapSet_ne _ _ _ _ _ hwid] at h4
      exact h4
  | error e =>
    rw [happ] at h2
    left
    by_cases hwid : wid = tid
    · subst hwid
      have h4 : getRecordW (mapSet s.warehouses wid _) wid pid = some r2 := h2
      rw [getRecordW_mapSet_self] at h4
      rw [getRecord_eq s wid pid w hw]
      exact h4
    · have h4 : getRecordW (mapSet s.warehouses tid _) wid pid = some r2 := h2
      rw [getRecordW_mapSet_ne _ _ _ _ _ hwid] at h4
      exact h4

theorem handleConflict_record_cases (s : SyncState) (tid : String) (w : Warehouse)
    (u : InventoryUpdate) (current : InventoryRecord) (now : Nat)
    (wid pid : String) (r2 : InventoryRecord)
    (hw : mapGet s.warehouses tid = some w)
    (h2 : getRecord (handleConflict s tid w u current now) wid pid = some r2) :
    getRecord s wid pid = some r2 ∨
      (wid = tid ∧ pid = u.productId ∧ r2.version = u.version ∧
       (handleConflict s tid w u current now).conflicts.getLast?.map conflictTag =
         some (some "accepted_incoming", u.version) ∧
       (handleConflict s tid w u current now).conflicts.length = s.conflicts.length + 1) := by
  by_cases hts : current.lastUpdated < u.timestamp
  · cases happ : applyUpdateW w u with
    | ok w2 =>
      have heq : handleConflict s tid w u current now =
          { s with warehouses := mapSet s.warehouses tid w2,
                   conflicts := s.conflicts ++
                     [{ id := s.nextConflictId, warehouseId := w.id, productId := u.productId,
                        incomingUpdate := u, currentState := current, timestamp := now,
                        resolved := true, resolution := some "accepted_incoming" }],
                   nextConflictId := s.nextConflictId + 1 } := by
        unfold handleConflict
        rw [if_pos hts, happ]
      rw [heq] at h2 ⊢
      obtain ⟨r, happly, rfl⟩ := applyUpdateW_ok w u w2 happ
      by_cases hwid : wid = tid
      · subst hwid
        have h4 : getRecordW (mapSet s.warehouses wid _) wid pid = some r2 := h2
        rw [getRecordW_mapSet_self] at h4
        have h5 : mapGet (mapSet w.inventory u.productId r) pid = some r2 := h4
        by_cases hpid : pid = u.productId
        · subst hpid
          rw [mapGet_mapSet_self] at h5
          have hr : r = r2 := Option.some.inj h5
          subst hr
          refine Or.inr ⟨rfl, rfl, (applyUpdate_ok_meta _ _ _ happly).1, ?_, ?_⟩
          · show (s.conflicts ++ [_]).getLast?.map conflictTag = _
            rw [List.getLast?_concat]
            simp [conflictTag]
          · show (s.conflicts ++ [_]).length = s.conflicts.length + 1
            simp
        · left
          rw [mapGet_mapSet_ne _ _ _ _ hpid] at h5
          rw [getRecord_eq s wid pid w hw]
          exact h5
      · left
        have h4 : getRecordW (mapSet s.warehouses tid _) wid pid = some r2 := h2
        rw [getRecordW_mapSet_ne _ _ _ _ _ hwid] at h4
        exact h4
    | error e =>
      have heq : handleConflict s tid w u current now =
          { s with warehouses := mapSet s.warehouses tid ({ w with lag := w.lag + 1 }),
                   conflicts := s.conflicts ++
                     [{ id := s.nextConflictId, warehouseId := w.id, productId := u.productId,
                        incomingUpdate := u, currentState := current, timestamp := now,
                        resolved := false, resolution := none }],
                   nextConflictId := s.nextConflictId + 1 } := by
        unfold handleConflict
        rw [if_pos hts, happ]
      rw [heq] at h2
      left
      by_cases hwid : wid = tid
      · subst hwid
        have h4 : getRecordW (mapSet s.warehouses wid _) wid pid = some r2 := h2
        rw [getRecordW_mapSet_self] at h4
        rw [getRecord_eq s wid pid w hw]
        exact h4
      · have h4 : getRecordW (mapSet s.warehouses tid _) wid pid = some r2 := h2
        rw [getRecordW_mapSet_ne _ _ _ _ _ hwid] at h4
        exact h4
  · have heq : handleConflict s tid w u current now =
        { s with conflicts := s.conflicts ++
                   [{ id := s.nextConflictId, warehouseId := w.id, productId := u.productId,
                      incomingUpdate := u, currentState := current, timestamp := now,
                      resolved := true, resolution := some "kept_current" }],
                 nextConflictId := s.nextConflictId + 1 } := by
      unfold handleConflict
      rw [if_neg hts]
    rw [heq] at h2
    left
    exact h2

theorem updateInventory_version (s : SyncState) (wid2 pid2 : String) (q : Int) (op : String)
    (now : Nat) (wid pid : String) (r r2 : InventoryRecord)
    (h : getRecord s wid pid = some r)
    (h2 : getRecord (updateInventory s wid2 pid2 q op now).1 wid pid = some r2) :
    r.version ≤ r2.version := by
  cases hw : mapGet s.warehouses wid2 with
  | none =>
    rw [updateInventory_notFound s wid2 pid2 q op now hw] at h2
    have h3 : getRecord s wid pid = some r2 := h2
    rw [h] at h3
    rw [Option.some.inj h3]
  | some w =>
    cases happ : applyUpdate ((mapGet w.inventory pid2).getD defaultRecord)
        (mkUpdate s wid2 pid2 q op now) with
    | error e =>
      rw [updateInventory_err s wid2 pid2 q op now w e hw happ] at h2
      have h3 : getRecord s wid pid = some r2 := h2
      rw [h] at h3
      rw [Option.some.inj h3]
    | ok rr =>
      rw [updateInventory_ok s wid2 pid2 q op now w rr hw happ] at h2
      by_cases hwid : wid = wid2
      · subst hwid
        have h4 : getRecordW (mapSet s.warehouses wid _) wid pid = some r2 := h2
        rw [getRecordW_mapSet_self] at h4
        have h5 : mapGet (mapSet w.inventory pid2 rr) pid = some r2 := h4
        by_cases hpid : pid = pid2
        · subst hpid
          rw [mapGet_mapSet_self] at h5
          have hrr : rr = r2 := Option.some.inj h5
          subst hrr
          have hver := (applyUpdate_ok_meta _ _ _ happ).1
          rw [hver]
          show r.version ≤ getVersion s wid pid + 1
          have h6 : mapGet w.inventory pid = some r := by
            rw [← getRecord_eq s wid pid w hw]
            exact h
          rw [getVersion_eq s wid pid w hw, h6]
          exact Nat.le_succ _
        · rw [mapGet_mapSet_ne _ _ _ _ hpid] at h5
          have h6 : getRecord s wid pid = some r2 := by
            rw [getRecord_eq s wid pid w hw]
            exact h5
          rw [h] at h6
          rw [Option.some.inj h6]
      · have h4 : getRecordW (mapSet s.warehouses wid2 _) wid pid = some r2 := h2
        rw [getRecordW_mapSet_ne _ _ _ _ _ hwid] at h4
        have h3 : getRecord s wid pid = some r2 := h4
        rw [h] at h3
        rw [Option.some.inj h3]

theorem syncToWarehouse_version (s : SyncState) (tid : String) (u : InventoryUpdate)
    (now : Nat) (wid pid : String) (r r2 : InventoryRecord)
    (h : getRecord s wid pid = some r)
    (h2 : getRecord (syncToWarehouse s tid u now) wid pid = some r2) :
    r.version ≤ r2.version ∨
      ((syncToWarehouse s tid u now).conflicts.getLast?.map conflictTag =
         some (some "accepted_incoming", r2.version) ∧
       (syncToWarehouse s tid u now).conflicts.length = s.conflicts.length + 1 ∧
       r2.version ≤ r.version) := by
  cases hw : mapGet s.warehouses tid with
  | none =>
    rw [syncToWarehouse_notFound s tid u now hw] at h2
    left
    rw [h] at h2
    rw [Option.some.inj h2]
  | some w =>
    cases hcur : mapGet w.inventory u.productId with
    | none =>
      rw [syncToWarehouse_noRecord s tid u now w hw hcur] at h2
      rcases applyAtTarget_record_cases s tid w u now wid pid r2 hw h2 with hL | ⟨hwid, hpid, hver⟩
      · left
        rw [h] at hL
        rw [Option.some.inj hL]
      · exfalso
        subst hwid
        subst hpid
        rw [getRecord_eq s wid u.productId w hw, hcur] at h
        exact Option.noConfusion h
    | some current =>
      by_cases hv : u.version ≤ current.version
      · rw [syncToWarehouse_conflict s tid u now w current hw hcur hv] at h2 ⊢
        rcases handleConflict_record_cases s tid w u current now wid pid r2 hw h2 with
          hL | ⟨hwid, hpid, hver, htag, hlen⟩
        · left
          rw [h] at hL
          rw [Option.some.inj hL]
        · right
          subst hwid
          subst hpid
          have hrc : current = r := by
            rw [getRecord_eq s wid u.productId w hw, hcur] at h
            exact Option.some.inj h
          refine ⟨?_, hlen, ?_⟩
          · rw [hver]
            exact htag
          · rw [hver, ← hrc]
            exact hv
      · rw [syncToWarehouse_noConflict s tid u now w current hw hcur hv] at h2
        rcases applyAtTarget_record_cases s tid w u now wid pid r2 hw h2 with hL | ⟨hwid, hpid, hver⟩
        · left
          rw [h] at hL
          rw [Option.some.inj hL]
        · left
          subst hwid
          subst hpid
          have hrc : current = r := by
            rw [getRecord_eq s wid u.productId w hw, hcur] at h
            exact Option.some.inj h
          rw [hver, ← hrc]
          exact le_of_lt (not_le.mp hv)

/-! The stable sort of `findOptimalWarehouse` refines first-minimum selection. -/

theorem sortByDistance_head (l : List Candidate) :
    (sortByDistance l).head? = firstMinByDistance l := by
  induction l with
  | nil => rfl
  | cons c rest ih =>
    show (sortInsert c (sortByDistance rest)).head? = firstMinByDistance (c :: rest)
    cases hs : sortByDistance rest with
    | nil =>
      rw [hs] at ih
      have ihn : firstMinByDistance rest = none := ih.symm.trans rfl
      have hR : firstMinByDistance (c :: rest) = some c := by
        unfold firstMinByDistance
        rw [ihn]
      rw [hR]
      rfl
    | cons d tl =>
      rw [hs] at ih
      have ihd : firstMinByDistance rest = some d := ih.symm.trans rfl
      have hR : firstMinByDistance (c :: rest) =
          if c.distance ≤ d.distance then some c else some d := by
        unfold firstMinByDistance
        rw [ihd]
      rw [hR]
      by_cases hd : c.distance ≤ d.distance
      · rw [if_pos hd, show sortInsert c (d :: tl) = c :: d :: tl from by
          simp only [sortInsert]; rw [if_pos hd]]
        rfl
      · rw [if_neg hd, show sortInsert c (d :: tl) = d :: sortInsert c tl from by
          simp only [sortInsert]; rw [if_neg hd]]
        rfl

theorem firstMin_eq_none (l : List Candidate) (h : firstMinByDistance l = none) : l = [] := by
  cases l with
  | nil => rfl
  | cons c rest =>
    exfalso
    unfold firstMinByDistance at h
    cases hf : firstMinByDistance rest with
    | none =>
      rw [hf] at h
      have h2 : some c = none := h
      exact Option.noConfusion h2
    | some d =>
      rw [hf] at h
      have h2 : (if c.distance ≤ d.distance then some c else some d) = none := h
      split_ifs at h2 <;> exact Option.noConfusion h2

theorem firstMin_spec (l : List Candidate) (c : Candidate)
    (h : firstMinByDistance l = some c) :
    c ∈ l ∧ (∀ d ∈ l, c.distance ≤ d.distance) ∧
      ∃ l1 l2, l = l1 ++ c :: l2 ∧ ∀ d ∈ l1, c.distance < d.distance := by
  induction l generalizing c with
  | nil => exact Option.noConfusion h
  | cons a rest ih =>
    unfold firstMinByDistance at h
    cases hf : firstMinByDistance rest with
    | none =>
      rw [hf] at h
      have h2 : some a = some c := h
      have hac : a = c := Option.some.inj h2
      subst hac
      have hrest : rest = [] := firstMin_eq_none rest hf
      subst hrest
      refine ⟨List.mem_cons_self _ _, ?_, [], [], rfl, ?_⟩
      · intro x hx
        rcases List.mem_cons.mp hx with h3 | h3
        · rw [h3]
        · exact absurd h3 (List.not_mem_nil _)
      · intro x hx
        exact absurd hx (List.not_mem_nil _)
    | some d =>
      rw [hf] at h
      have h2 : (if a.distance ≤ d.distance then some a else some d) = some c := h
      obtain ⟨hmem, hmin, l1, l2, hsplit, hpre⟩ := ih d hf
      by_cases had : a.distance ≤ d.distance
      · rw [if_pos had] at h2
        have hac : a = c := Option.some.inj h2
        subst hac
        refine ⟨List.mem_cons_self _ _, ?_, [], rest, rfl, ?_⟩
        · intro x hx
          rcases List.mem_cons.mp hx with h3 | h3
          · rw [h3]
          · exact le_trans had (hmin x h3)
        · intro x hx
          exact absurd hx (List.not_mem_nil _)
      · rw [if_neg had] at h2
        have hdc : d = c := Option.some.inj h2
        subst hdc
        refine ⟨List.mem_cons_of_mem _ hmem, ?_, a :: l1, l2, ?_, ?_⟩
        · intro x hx
          rcases List.mem_cons.mp hx with h3 | h3
          · rw [h3]
            exact le_of_lt (not_le.mp had)
          · exact hmin x h3
        · rw [hsplit]
          rfl
        · intro x hx
          rcases List.mem_cons.mp hx with h3 | h3
          · rw [h3]
            exact not_le.mp had
          · exact hpre x h3

theorem lagOf_eq (s : SyncState) (wid : String) (w : Warehouse)
    (hw : mapGet s.warehouses wid = some w) : lagOf s wid = w.lag := by
  unfold lagOf
  rw [hw]

/-! Claims. -/

/-- C1 counterexample: the claimed invariant 0 ≤ reserved ≤ quantity fails on
the code.  After `c1Trace` (set quantity 10, then reserve 10 twice — each
reserve passes the source's `quantity >= value` check) the record at (A, p)
has reserved = 20 > quantity = 10. -/
theorem c1_invariant_counterexample :
    getRecord (run initState c1Trace) "A" "p" =
      some { quantity := 10, reserved := 20, version := 3, lastUpdated := 3 } ∧
    ¬ ((20 : Int) ≤ (10 : Int)) := by decide

/-- C1 (amended): after every sequence of engine operations whose requested
values are non-negative, every InventoryRecord satisfies 0 ≤ quantity and
0 ≤ reserved; the upper bound reserved ≤ quantity is not maintained, because
the reserve check compares the requested value against quantity rather than
against quantity − reserved. -/
theorem c1_nonneg_amended (es : List Event) (h : es.all eventNonnegB = true) :
    recordsNonnegB (run initState es) = true := by
  have hinv := run_StateNonneg es initState initState_StateNonneg h
  unfold recordsNonnegB
  rw [List.all_eq_true]
  intro kv hkv
  rw [List.all_eq_true]
  intro pr hpr
  exact decide_eq_true (hinv.1 kv hkv pr hpr)

/-- C1 witness: the amended invariant evaluated on the concrete trace
`c1Trace`. -/
theorem c1_nonneg_amended_witness :
    c1Trace.all eventNonnegB = true ∧ recordsNonnegB (run initState c1Trace) = true :=
  ⟨by decide, c1_nonneg_amended c1Trace (by decide)⟩

/-- C2 counterexample: the claim says a reserve succeeds exactly when
quantity − reserved ≥ v.  After set 10 and reserve 8, available is 2; a
reserve of 5 should fail, yet the code compares 5 against quantity 10 and
succeeds, leaving reserved = 13. -/
theorem c2_reserve_counterexample :
    getRecord (run initState c2Trace) "A" "p" =
      some { quantity := 10, reserved := 13, version := 3, lastUpdated := 3 } ∧
    ((10 : Int) - 8 < 5) := by decide

/-- C2 (amended): a reserve succeeds and sets reserved := reserved + v exactly
when v ≤ quantity (the check ignores reserved); otherwise it fails with the
insufficient-inventory error and the warehouse map is left unmutated. -/
theorem c2_reserve_amended (s : SyncState) (wid pid : String) (v : Int) (now : Nat)
    (w : Warehouse) (hw : mapGet s.warehouses wid = some w) :
    (v ≤ ((mapGet w.inventory pid).getD defaultRecord).quantity →
       (updateInventory s wid pid v "reserve" now).2 =
         Except.ok (mkUpdate s wid pid v "reserve" now) ∧
       getRecord (updateInventory s wid pid v "reserve" now).1 wid pid =
         some { quantity := ((mapGet w.inventory pid).getD defaultRecord).quantity,
                reserved := ((mapGet w.inventory pid).getD defaultRecord).reserved + v,
                version := getVersion s wid pid + 1, lastUpdated := now }) ∧
    (((mapGet w.inventory pid).getD defaultRecord).quantity < v →
       (updateInventory s wid pid v "reserve" now).2 =
         Except.error ("Insufficient inventory to reserve " ++ toString v) ∧
       (updateInventory s wid pid v "reserve" now).1.warehouses = s.warehouses) := by
  constructor
  · intro hle
    have happ : applyUpdate ((mapGet w.inventory pid).getD defaultRecord)
        (mkUpdate s wid pid v "reserve" now) =
        Except.ok { quantity := ((mapGet w.inventory pid).getD defaultRecord).quantity,
                    reserved := ((mapGet w.inventory pid).getD defaultRecord).reserved + v,
                    version := getVersion s wid pid + 1, lastUpdated := now } :=
      applyUpdate_reserve_ok _ _ rfl hle
    rw [updateInventory_ok s wid pid v "reserve" now w _ hw happ]
    refine ⟨rfl, ?_⟩
    exact (getRecordW_mapSet_self s.warehouses wid _ pid).trans
      (mapGet_mapSet_self w.inventory pid _)
  · intro hlt
    have happ : applyUpdate ((mapGet w.inventory pid).getD defaultRecord)
        (mkUpdate s wid pid v "reserve" now) =
        Except.error ("Insufficient inventory to reserve " ++ toString v) :=
      applyUpdate_reserve_insufficient _ _ rfl hlt
    rw [updateInventory_err s wid pid v "reserve" now w _ hw happ]
    exact ⟨rfl, rfl⟩

/-- C2 witness: the amended reserve rule evaluated concretely — with
quantity 10 a reserve of 4 succeeds and returns the created update. -/
theorem c2_reserve_amended_witness :
    (4 : Int) ≤ ((mapGet c2WitW.inventory "p").getD defaultRecord).quantity ∧
    (updateInventory (run initState c2WitTrace) "A" "p" 4 "reserve" 9).2 =
      Except.ok (mkUpdate (run initState c2WitTrace) "A" "p" 4 "reserve" 9) := by
  refine ⟨by decide, ?_⟩
  exact ((c2_reserve_amended (run initState c2WitTrace) "A" "p" 4 9 c2WitW
    (by decide)).1 (by decide)).1

/-- C3 counterexample: versions are not non-decreasing.  After `c3TracePre`
warehouse A holds version 2 for p; delivering B's concurrently created
version-1 update (with a newer timestamp) resolves the conflict by accepting
the incoming update and rewrites A's record to version 1. -/
theorem c3_version_counterexample :
    (getRecord (run initState c3TracePre) "A" "p").map InventoryRecord.version = some 2 ∧
    (getRecord (run initState c3Trace) "A" "p").map InventoryRecord.version = some 1 := by
  decide

/-- C3 (amended): across every atomic step of the engine, the version of any
(warehouse, product) record is non-decreasing, except when the step resolves
a version conflict by accepting the incoming update (last-write-wins): then
exactly one conflict tagged accepted_incoming is appended and the record's
version becomes the incoming update's version, which is at most the old
version. -/
theorem c3_version_amended (s : SyncState) (e : Event) (wid pid : String)
    (r r2 : InventoryRecord)
    (h : getRecord s wid pid = some r)
    (h2 : getRecord (step s e) wid pid = some r2) :
    r.version ≤ r2.version ∨
      ((step s e).conflicts.getLast?.map conflictTag =
         some (some "accepted_incoming", r2.version) ∧
       (step s e).conflicts.length = s.conflicts.length + 1 ∧
       r2.version ≤ r.version) := by
  cases e with
  | register wid2 loc =>
    have h3 : getRecord (registerWarehouse { s with clock := s.clock + 1 } wid2 loc)
        wid pid = some r2 := h2
    rw [registerWarehouse_getRecord] at h3
    by_cases hwid : wid = wid2
    · rw [if_pos hwid] at h3
      exact Option.noConfusion h3
    · rw [if_neg hwid] at h3
      have h4 : getRecord s wid pid = some r2 := h3
      left
      rw [h] at h4
      rw [Option.some.inj h4]
  | update wid2 pid2 q2 op =>
    left
    have h3 : getRecord (updateInventory { s with clock := s.clock + 1 }
        wid2 pid2 q2 op s.clock).1 wid pid = some r2 := h2
    exact updateInventory_version { s with clock := s.clock + 1 } wid2 pid2 q2 op s.clock
      wid pid r r2 h h3
  | deliver i =>
    cases hp : s.pending[i]? with
    | none =>
      have heq : step s (Event.deliver i) = { s with clock := s.clock + 1 } := by
        rw [show step s (Event.deliver i) = (match s.pending[i]? with
          | none => ({ s with clock := s.clock + 1 } : SyncState)
          | some tu => syncToWarehouse { s with clock := s.clock + 1, pending := s.pending.eraseIdx i } tu.1 tu.2 s.clock) from rfl, hp]
      rw [heq] at h2
      have h3 : getRecord s wid pid = some r2 := h2
      left
      rw [h] at h3
      rw [Option.some.inj h3]
    | some tu =>
      have heq : step s (Event.deliver i) =
          syncToWarehouse { s with clock := s.clock + 1, pending := s.pending.eraseIdx i } tu.1 tu.2 s.clock := by
        rw [show step s (Event.deliver i) = (match s.pending[i]? with
          | none => ({ s with clock := s.clock + 1 } : SyncState)
          | some tu => syncToWarehouse { s with clock := s.clock + 1, pending := s.pending.eraseIdx i } tu.1 tu.2 s.clock) from rfl, hp]
      rw [heq] at h2 ⊢
      exact syncToWarehouse_version
        { s with clock := s.clock + 1, pending := s.pending.eraseIdx i }
        tu.1 tu.2 s.clock wid pid r r2 h h2

/-- C3 witness: the amended version law evaluated on a concrete step (a
registration leaves the existing record's version unchanged). -/
theorem c3_version_amended_witness :
    c3WitRec.version ≤ c3WitRec.version ∨
      ((step (run initState smallTrace) (Event.register "B" "Y")).conflicts.getLast?.map
          conflictTag = some (some "accepted_incoming", c3WitRec.version) ∧
       (step (run initState smallTrace) (Event.register "B" "Y")).conflicts.length =
         (run initState smallTrace).conflicts.length + 1 ∧
       c3WitRec.version ≤ c3WitRec.version) :=
  c3_version_amended (run initState smallTrace) (Event.register "B" "Y") "A" "p"
    c3WitRec c3WitRec (by decide) (by decide)

/-- C4 counterexample: a conflict record is not always resolved.  In
`c4Trace` the last-write-wins resolution accepts an incoming reserve that
then fails at the target (quantity 2 < 5): the single conflict in the log
keeps resolved = false, the target's lag is incremented, and the record is
unchanged. -/
theorem c4_conflict_counterexample :
    (run initState c4Trace).conflicts.map Conflict.resolved = [false] ∧
    lagOf (run initState c4Trace) "B" = 1 ∧
    getRecord (run initState c4Trace) "B" "p" =
      some { quantity := 2, reserved := 0, version := 2, lastUpdated := 3 } := by decide

/-- C4 (amended): when an update reaches a warehouse whose record has version
at least the update's version, exactly one Conflict record is appended and
one of three outcomes happens: (1) the update's timestamp is newer and its
application succeeds — the record becomes the applied update and the conflict
is resolved = true with resolution accepted_incoming; (2) the update's
timestamp is newer but applying it fails (an impossible reserve) — the record
is unchanged, the conflict stays resolved = false with no resolution, and
the target's lag increments; (3) otherwise the record is unchanged and the
conflict is resolved = true with resolution kept_current. -/
theorem c4_conflict_amended (s : SyncState) (targetId : String) (u : InventoryUpdate)
    (now : Nat) (w : Warehouse) (current : InventoryRecord)
    (hw : mapGet s.warehouses targetId = some w)
    (hc : mapGet w.inventory u.productId = some current)
    (hv : u.version ≤ current.version) :
    (current.lastUpdated < u.timestamp ∧ isOkE (applyUpdate current u) = true ∧
       (syncToWarehouse s targetId u now).conflicts =
         s.conflicts ++ [{ id := s.nextConflictId, warehouseId := w.id,
                           productId := u.productId, incomingUpdate := u,
                           currentState := current, timestamp := now,
                           resolved := true, resolution := some "accepted_incoming" }] ∧
       getRecord (syncToWarehouse s targetId u now) targetId u.productId =
         okValue (applyUpdate current u)) ∨
    (current.lastUpdated < u.timestamp ∧ isOkE (applyUpdate current u) = false ∧
       (syncToWarehouse s targetId u now).conflicts =
         s.conflicts ++ [{ id := s.nextConflictId, warehouseId := w.id,
                           productId := u.productId, incomingUpdate := u,
                           currentState := current, timestamp := now,
                           resolved := false, resolution := none }] ∧
       getRecord (syncToWarehouse s targetId u now) targetId u.productId = some current ∧
       lagOf (syncToWarehouse s targetId u now) targetId = lagOf s targetId + 1) ∨
    (u.timestamp ≤ current.lastUpdated ∧
       (syncToWarehouse s targetId u now).conflicts =
         s.conflicts ++ [{ id := s.nextConflictId, warehouseId := w.id,
                           productId := u.productId, incomingUpdate := u,
                           currentState := current, timestamp := now,
                           resolved := true, resolution := some "kept_current" }] ∧
       getRecord (syncToWarehouse s targetId u now) targetId u.productId = some current) := by
  have hs := syncToWarehouse_conflict s targetId u now w current hw hc hv
  have hgetd : (mapGet w.inventory u.productId).getD defaultRecord = current := by
    rw [hc]
    rfl
  by_cases hts : current.lastUpdated < u.timestamp
  · cases happly : applyUpdate current u with
    | ok r =>
      left
      have happW : applyUpdateW w u =
          Except.ok ({ w with inventory := mapSet w.inventory u.productId r }) := by
        unfold applyUpdateW
        rw [hgetd, happly]
      have heq : handleConflict s targetId w u current now =
          { s with warehouses := mapSet s.warehouses targetId
                     ({ w with inventory := mapSet w.inventory u.productId r }),
                   conflicts := s.conflicts ++
                     [{ id := s.nextConflictId, warehouseId := w.id,
                        productId := u.productId, incomingUpdate := u,
                        currentState := current, timestamp := now,
                        resolved := true, resolution := some "accepted_incoming" }],
                   nextConflictId := s.nextConflictId + 1 } := by
        unfold handleConflict
        rw [if_pos hts, happW]
      refine ⟨hts, rfl, ?_, ?_⟩
      · rw [hs, heq]
      · rw [hs, heq]
        exact (getRecordW_mapSet_self s.warehouses targetId _ u.productId).trans
          (mapGet_mapSet_self w.inventory u.productId _)
    | error e =>
      right
      left
      have happW : applyUpdateW w u = Except.error e := by
        unfold applyUpdateW
        rw [hgetd, happly]
      have heq : handleConflict s targetId w u current now =
          { s with warehouses := mapSet s.warehouses targetId
                     ({ w with lag := w.lag + 1 }),
                   conflicts := s.conflicts ++
                     [{ id := s.nextConflictId, warehouseId := w.id,
                        productId := u.productId, incomingUpdate := u,
                        currentState := current, timestamp := now,
                        resolved := false, resolution := none }],
                   nextConflictId := s.nextConflictId + 1 } := by
        unfold handleConflict
        rw [if_pos hts, happW]
      refine ⟨hts, rfl, ?_, ?_, ?_⟩
      · rw [hs, heq]
      · rw [hs, heq]
        exact (getRecordW_mapSet_self s.warehouses targetId _ u.productId).trans hc
      · rw [hs, heq]
        rw [lagOf_eq _ targetId ({ w with lag := w.lag + 1 }) (mapGet_mapSet_self _ _ _),
          lagOf_eq s targetId w hw]
  · right
    right
    have heq : handleConflict s targetId w u current now =
        { s with conflicts := s.conflicts ++
                   [{ id := s.nextConflictId, warehouseId := w.id,
                      productId := u.productId, incomingUpdate := u,
                      currentState := current, timestamp := now,
                      resolved := true, resolution := some "kept_current" }],
                 nextConflictId := s.nextConflictId + 1 } := by
      unfold handleConflict
      rw [if_neg hts]
    refine ⟨not_lt.mp hts, ?_, ?_⟩
    · rw [hs, heq]
    · rw [hs, heq]
      exact (getRecord_eq _ targetId u.productId w hw).trans hc

/-- C4 witness: the amended conflict law applied at a concrete conflicting
delivery, which appends exactly one conflict record. -/
theorem c4_conflict_amended_witness :
    (syncToWarehouse (run initState c4WitTrace) "B" c4WitU 9).conflicts.length =
      (run initState c4WitTrace).conflicts.length + 1 := by
  rcases c4_conflict_amended (run initState c4WitTrace) "B" c4WitU 9 c4WitW c4WitCur
      (by decide) (by decide) (by decide) with h | h | h
  · rw [h.2.2.1]
    simp
  · rw [h.2.2.1]
    simp
  · rw [h.2.1]
    simp

/-- C5 counterexample: after registering A and B, setting sku1 to 100 at A
and delivering the propagation to B, getGlobalInventory sums the replicated
quantity over both warehouses: totalQuantity is 200, not 100. -/
theorem c5_global_counterexample :
    (getGlobalInventory (run initState c5Trace) "sku1" 9).totalQuantity = 200 ∧
    ((200 : Int) ≠ 100) := by decide

/-- C5 (amended): in the two-warehouse scenario, before the propagation to B
is delivered getGlobalInventory("sku1") has totalQuantity 100; after the
delivery B's record for sku1 is quantity 100 (version 1) and totalQuantity
is 200, because the aggregation sums quantity over every warehouse holding a
record. -/
theorem c5_global_amended :
    (getGlobalInventory (run initState c5TracePre) "sku1" 9).totalQuantity = 100 ∧
    (getGlobalInventory (run initState c5Trace) "sku1" 9).totalQuantity = 200 ∧
    getRecord (run initState c5Trace) "B" "sku1" =
      some { quantity := 100, reserved := 0, version := 1, lastUpdated := 2 } := by decide

/-- C6 counterexample: re-registering an existing warehouse id neither
signals an error nor leaves the warehouse unchanged — the second
registration replaces A's populated warehouse with a fresh empty one at the
new location. -/
theorem c6_register_counterexample :
    mapGet (run initState c6TracePre).warehouses "A" =
      some { id := "A", location := "X",
             inventory := [("p", { quantity := 5, reserved := 0, version := 1,
                                   lastUpdated := 1 })],
             lastSync := none, status := "active", lag := 0 } ∧
    mapGet (run initState c6Trace).warehouses "A" =
      some { id := "A", location := "Y", inventory := [], lastSync := none,
             status := "active", lag := 0 } := by decide

/-- C6 (amended): registerWarehouse never signals an error; it
unconditionally maps the id to a fresh warehouse (empty inventory, status
active, lag 0, the given location), overwriting any existing warehouse with
that id. -/
theorem c6_register_amended (s : SyncState) (wid loc : String) :
    mapGet (registerWarehouse s wid loc).warehouses wid =
      some { id := wid, location := loc, inventory := [], lastSync := none,
             status := "active", lag := 0 } := by
  unfold registerWarehouse
  exact mapGet_mapSet_self _ _ _

/-- C7 counterexample: with two candidates at equal distance 5 the selector
returns "b", the earlier-registered warehouse, even though "a" has greater
available stock (20 > 10): the claimed available-stock tie-break (and after
it the id tie-break) would pick "a". -/
theorem c7_tiebreak_counterexample :
    (findOptimalWarehouse (run initState c7Trace) "p" 1 c7Dist "Z").map
        Candidate.warehouseId = some "b" ∧
    candidatesFor (run initState c7Trace) "p" 1 c7Dist "Z" =
      [{ warehouseId := "b", location := "LB", available := 10, distance := 5,
         estimatedShipping := "1-2 days" },
       { warehouseId := "a", location := "LA", available := 20, distance := 5,
         estimatedShipping := "1-2 days" }] ∧
    ((10 : Int) < 20) ∧ ("b" ≠ "a") := by decide

/-- C7 (amended): findOptimalWarehouse considers exactly the warehouses whose
record for the product has quantity − reserved ≥ the requested quantity,
returns none when no warehouse qualifies, and otherwise returns a candidate
of minimal distance; distance ties are broken by warehouse registration
order (the earliest-registered candidate among those of minimal distance),
not by available stock or by warehouse id. -/
theorem c7_selector_amended (s : SyncState) (pid : String) (q : Int)
    (dist : String → String → Nat) (addr : String) :
    (findOptimalWarehouse s pid q dist addr = none ↔
       candidatesFor s pid q dist addr = []) ∧
    (∀ kv ∈ s.warehouses, ∀ inv, mapGet kv.2.inventory pid = some inv →
       q ≤ inv.quantity - inv.reserved →
       ∃ c ∈ candidatesFor s pid q dist addr, c.warehouseId = kv.1) ∧
    ∀ c, findOptimalWarehouse s pid q dist addr = some c →
      c ∈ candidatesFor s pid q dist addr ∧
      (∀ d ∈ candidatesFor s pid q dist addr, c.distance ≤ d.distance) ∧
      ∃ l1 l2, candidatesFor s pid q dist addr = l1 ++ c :: l2 ∧
        ∀ d ∈ l1, c.distance < d.distance := by
  have hfind : findOptimalWarehouse s pid q dist addr =
      firstMinByDistance (candidatesFor s pid q dist addr) := by
    unfold findOptimalWarehouse
    exact sortByDistance_head _
  refine ⟨?_, ?_, ?_⟩
  · rw [hfind]
    constructor
    · exact firstMin_eq_none _
    · intro h
      rw [h]
      rfl
  · intro kv hkv inv hinv hq
    refine ⟨{ warehouseId := kv.1, location := kv.2.location,
              available := inv.quantity - inv.reserved,
              distance := dist kv.2.location addr,
              estimatedShipping := estimateShipping (dist kv.2.location addr) }, ?_, rfl⟩
    unfold candidatesFor
    apply List.mem_filterMap.mpr
    refine ⟨kv, hkv, ?_⟩
    unfold candidateOf
    rw [hinv]
    show (if q ≤ inv.quantity - inv.reserved then _ else none) = _
    rw [if_pos hq]
  · intro c hc
    rw [hfind] at hc
    exact firstMin_spec _ c hc

/-- C7 witness: the amended selector law applied to a one-warehouse state —
the returned candidate is a member of the candidate list. -/
theorem c7_selector_amended_witness :
    findOptimalWarehouse (run initState c7WitTrace) "p" 1 c7Dist "Z" = some c7WitCand ∧
    c7WitCand ∈ candidatesFor (run initState c7WitTrace) "p" 1 c7Dist "Z" := by
  refine ⟨by decide, ?_⟩
  exact ((c7_selector_amended (run initState c7WitTrace) "p" 1 c7Dist "Z").2.2 c7WitCand
    (by decide)).1

/-- C8 counterexample: two reads with no intervening mutation are not
identical result values — the lastUpdated field carries the wall-clock time
of each call. -/
theorem c8_read_counterexample :
    getGlobalInventory (run initState smallTrace) "p" 1 ≠
      getGlobalInventory (run initState smallTrace) "p" 2 := by decide

/-- C8 (amended): two getGlobalInventory reads of the same state agree on
productId, totalQuantity, totalReserved, totalAvailable and the per-warehouse
breakdown; the lastUpdated field equals the wall-clock time of each call, so
it differs whenever the clock has advanced between the calls. -/
theorem c8_read_amended (s : SyncState) (pid : String) (n1 n2 : Nat) :
    (getGlobalInventory s pid n1).productId = (getGlobalInventory s pid n2).productId ∧
    (getGlobalInventory s pid n1).totalQuantity =
      (getGlobalInventory s pid n2).totalQuantity ∧
    (getGlobalInventory s pid n1).totalReserved =
      (getGlobalInventory s pid n2).totalReserved ∧
    (getGlobalInventory s pid n1).totalAvailable =
      (getGlobalInventory s pid n2).totalAvailable ∧
    (getGlobalInventory s pid n1).warehouses = (getGlobalInventory s pid n2).warehouses ∧
    (getGlobalInventory s pid n1).lastUpdated = n1 ∧
    (getGlobalInventory s pid n2).lastUpdated = n2 :=
  ⟨rfl, rfl, rfl, rfl, rfl, rfl, rfl⟩

/-- C9 (confirmed): for a registered warehouse and an operation string
outside the five known kinds, updateInventory succeeds, returns the created
update, overwrites the record with unchanged quantity and reserved but
version := prior version + 1 and lastUpdated := the update's timestamp, and
still enqueues the update to the sync queue and spawns propagation to every
other active warehouse. -/
theorem c9_unknown_op (s : SyncState) (wid pid : String) (q : Int) (op : String)
    (now : Nat) (w : Warehouse)
    (hop : op ∉ (["set", "add", "subtract", "reserve", "release"] : List String))
    (hw : mapGet s.warehouses wid = some w) :
    (updateInventory s wid pid q op now).2 = Except.ok (mkUpdate s wid pid q op now) ∧
    getRecord (updateInventory s wid pid q op now).1 wid pid =
      some { quantity := ((mapGet w.inventory pid).getD defaultRecord).quantity,
             reserved := ((mapGet w.inventory pid).getD defaultRecord).reserved,
             version := getVersion s wid pid + 1, lastUpdated := now } ∧
    (updateInventory s wid pid q op now).1.pending =
      s.pending ++ (propagationTargets s.warehouses wid).map
        (fun kv => (kv.1, mkUpdate s wid pid q op now)) ∧
    (updateInventory s wid pid q op now).1.syncQueue =
      s.syncQueue ++ [mkUpdate s wid pid q op now] := by
  have happ : applyUpdate ((mapGet w.inventory pid).getD defaultRecord)
      (mkUpdate s wid pid q op now) =
      Except.ok { quantity := ((mapGet w.inventory pid).getD defaultRecord).quantity,
                  reserved := ((mapGet w.inventory pid).getD defaultRecord).reserved,
                  version := getVersion s wid pid + 1, lastUpdated := now } :=
    applyUpdate_unknown _ _ hop
  rw [updateInventory_ok s wid pid q op now w _ hw happ]
  refine ⟨rfl, ?_, rfl, rfl⟩
  exact (getRecordW_mapSet_self s.warehouses wid _ pid).trans
    (mapGet_mapSet_self w.inventory pid _)

/-- C9 witness: the unknown-operation law evaluated at the concrete operation
string "noop" on a registered warehouse. -/
theorem c9_unknown_op_witness :
    ("noop" ∉ (["set", "add", "subtract", "reserve", "release"] : List String)) ∧
    (updateInventory (run initState smallTrace) "A" "p" 5 "noop" 7).2 =
      Except.ok (mkUpdate (run initState smallTrace) "A" "p" 5 "noop" 7) := by
  refine ⟨by decide, ?_⟩
  exact (c9_unknown_op (run initState smallTrace) "A" "p" 5 "noop" 7 smallW
    (by decide) (by decide)).1

/-- C10 (confirmed): every updateInventory call on a registered warehouse
appends exactly one update to the process-wide sync queue — also when the
apply step fails — and no step of the engine ever removes a queue entry:
the old queue is a prefix of the new one and getSyncStatus().queueLength is
non-decreasing. -/
theorem c10_queue_monotone (s : SyncState) :
    (∀ wid pid q op now w, mapGet s.warehouses wid = some w →
       (updateInventory s wid pid q op now).1.syncQueue =
         s.syncQueue ++ [mkUpdate s wid pid q op now]) ∧
    ∀ e : Event, s.syncQueue <+: (step s e).syncQueue ∧
      (getSyncStatus s).queueLength ≤ (getSyncStatus (step s e)).queueLength := by
  constructor
  · intro wid pid q op now w hw
    cases happ : applyUpdate ((mapGet w.inventory pid).getD defaultRecord)
        (mkUpdate s wid pid q op now) with
    | ok r => rw [updateInventory_ok s wid pid q op now w r hw happ]
    | error e => rw [updateInventory_err s wid pid q op now w e hw happ]
  · intro e
    have hpre : s.syncQueue <+: (step s e).syncQueue := by
      cases e with
      | register wid loc => exact List.prefix_refl _
      | update wid pid q op =>
        cases hw : mapGet s.warehouses wid with
        | none =>
          have heq : (updateInventory { s with clock := s.clock + 1 } wid pid q op
              s.clock).1.syncQueue = s.syncQueue := by
            rw [updateInventory_notFound { s with clock := s.clock + 1 } wid pid q op
              s.clock hw]
          show s.syncQueue <+:
            (updateInventory { s with clock := s.clock + 1 } wid pid q op s.clock).1.syncQueue
          rw [heq]
        | some w =>
          show s.syncQueue <+:
            (updateInventory { s with clock := s.clock + 1 } wid pid q op s.clock).1.syncQueue
          cases happ : applyUpdate ((mapGet w.inventory pid).getD defaultRecord)
              (mkUpdate { s with clock := s.clock + 1 } wid pid q op s.clock) with
          | ok r =>
            rw [updateInventory_ok { s with clock := s.clock + 1 } wid pid q op s.clock
              w r hw happ]
            exact List.prefix_append _ _
          | error e2 =>
            rw [updateInventory_err { s with clock := s.clock + 1 } wid pid q op s.clock
              w e2 hw happ]
            exact List.prefix_append _ _
      | deliver i =>
        cases hp : s.pending[i]? with
        | none =>
          have heq : step s (Event.deliver i) = { s with clock := s.clock + 1 } := by
            rw [show step s (Event.deliver i) = (match s.pending[i]? with
              | none => ({ s with clock := s.clock + 1 } : SyncState)
              | some tu => syncToWarehouse { s with clock := s.clock + 1, pending := s.pending.eraseIdx i } tu.1 tu.2 s.clock) from rfl, hp]
          rw [heq]
        | some tu =>
          have heq : step s (Event.deliver i) =
              syncToWarehouse { s with clock := s.clock + 1, pending := s.pending.eraseIdx i } tu.1 tu.2 s.clock := by
            rw [show step s (Event.deliver i) = (match s.pending[i]? with
              | none => ({ s with clock := s.clock + 1 } : SyncState)
              | some tu => syncToWarehouse { s with clock := s.clock + 1, pending := s.pending.eraseIdx i } tu.1 tu.2 s.clock) from rfl, hp]
          rw [heq, syncToWarehouse_syncQueue]
    exact ⟨hpre, hpre.length_le⟩

/-- C10 witness: a failing reserve (99 against quantity 3) still appends
exactly one update to the sync queue, and the queue is prefix-monotone
across the step. -/
theorem c10_queue_monotone_witness :
    (updateInventory (run initState smallTrace) "A" "p" 99 "reserve" 7).1.syncQueue =
      (run initState smallTrace).syncQueue ++
        [mkUpdate (run initState smallTrace) "A" "p" 99 "reserve" 7] ∧
    (run initState smallTrace).syncQueue <+:
      (step (run initState smallTrace) (Event.update "A" "p" 99 "reserve")).syncQueue := by
  constructor
  · exact (c10_queue_monotone (run initState smallTrace)).1 "A" "p" 99 "reserve" 7 smallW
      (by decide)
  · exact ((c10_queue_monotone (run initState smallTrace)).2
      (Event.update "A" "p" 99 "reserve")).1

end InventorySync
